import Mathlib

/-!
Shallow embedding of the DockerNudge Wake-on-LAN core: the functions
`validate_mac_address`, `create_magic_packet` and `send_wol_packet` of
`wol_core.py`, together with the duplicated copies of the first two in
`wol_sender.py`.  Strings are Lean strings, byte strings are lists of
natural numbers below 256, and the operating-system behaviour of the three
socket calls made by `send_wol_packet` is passed in explicitly as an
oracle, with the performed socket operations returned as a trace.
-/

namespace DockerNudge

/-- Characters stripped as whitespace by CPython's `int(s, 16)` parser
(the ASCII whitespace range). -/
def isPySpace (c : Char) : Bool :=
  c = ' ' || c = '\t' || c = '\n' || c = '\r' || c = '\x0b' || c = '\x0c'

/-- Hexadecimal digit test: 0-9, a-f, A-F. -/
def isHexDig (c : Char) : Bool :=
  ('0' ≤ c && c ≤ '9') || ('a' ≤ c && c ≤ 'f') || ('A' ≤ c && c ≤ 'F')

/-- Numeric value of a hexadecimal digit (0 on other characters). -/
def hexVal (c : Char) : Nat :=
  if '0' ≤ c && c ≤ '9' then c.toNat - 48
  else if 'a' ≤ c && c ≤ 'f' then c.toNat - 87
  else if 'A' ≤ c && c ≤ 'F' then c.toNat - 55
  else 0

/-- Tail of a digit run in a CPython integer literal: hex digits separated
by single underscores, with no trailing or doubled underscore. -/
def hexTail : List Char → Bool
  | [] => true
  | c :: rest =>
    if c = '_' then
      match rest with
      | [] => false
      | d :: rest2 => isHexDig d && hexTail rest2
    else isHexDig c && hexTail rest

/-- Nonempty run of hex digits with optional single underscores between
digits, as CPython's integer parser accepts. -/
def hexDigits : List Char → Bool
  | [] => false
  | c :: rest => isHexDig c && hexTail rest

/-- Strip leading and trailing whitespace, as CPython `int` does. -/
def pyStrip (l : List Char) : List Char :=
  ((l.dropWhile isPySpace).reverse.dropWhile isPySpace).reverse

/-- Drop one leading sign character, as CPython `int` does. -/
def dropSign (l : List Char) : List Char :=
  match l with
  | [] => []
  | c :: r => if c = '+' || c = '-' then r else l

/-- Digit part of a CPython base-16 literal: an optional `0x` or `0X`
marker (with an optional single underscore right after it) followed by a
nonempty run of hex digits. -/
def hexBody (l : List Char) : Bool :=
  match l with
  | a :: b :: rest =>
    if a = '0' && (b = 'x' || b = 'X') then
      match rest with
      | [] => false
      | c :: rest2 => if c = '_' then hexDigits rest2 else hexDigits rest
    else hexDigits l
  | _ => hexDigits l

/-- Models success of CPython `int(s, 16)`: whether `s` parses as a base-16
integer literal (optional whitespace, optional sign, optional `0x` or `0X`
marker, underscore-separated hex digits).  This is exactly the check the
source performs with `int(mac, 16)` inside a try/except. -/
def int16Accepts (s : String) : Bool :=
  hexBody (dropSign (pyStrip s.data))

/-- Models `mac.replace(':', '').replace('-', '').replace('.', '')`. -/
def stripSeps (s : String) : String :=
  ⟨s.data.filter (fun c => !(c = ':' || c = '-' || c = '.'))⟩

/-- Models `str.upper()` on the basic latin range. -/
def pyUpper (s : String) : String :=
  ⟨s.data.map Char.toUpper⟩

/-- The first step of `validate_mac_address`: separator stripping followed
by uppercasing. -/
def normalizeInput (s : String) : String :=
  pyUpper (stripSeps s)

/-- Typed rendering of the two `ValueError` raise sites in
`validate_mac_address`. -/
inductive MacError where
  | invalidLength (mac : String)
  | invalidFormat (mac : String)
  deriving DecidableEq, Repr

/-- A `ValueError` escaping `create_magic_packet`. -/
inductive PyError where
  | valueError (msg : String)
  deriving DecidableEq, Repr

/-- Models CPython `bytes.fromhex`: pairs of hex digits with space
characters allowed between pairs (and at either end); fails on any other
character, on a space inside a pair, or on an odd number of digits. -/
def fromhexAux : List Char → Option (List Nat)
  | [] => some []
  | c :: rest =>
    if c = ' ' then fromhexAux rest
    else
      match rest with
      | [] => none
      | d :: rest2 =>
        if isHexDig c && isHexDig d then
          match fromhexAux rest2 with
          | some bs => some ((hexVal c * 16 + hexVal d) :: bs)
          | none => none
        else none

/-- Models `bytes.fromhex(s)`. -/
def bytesFromHex (s : String) : Option (List Nat) :=
  fromhexAux s.data

deriving instance DecidableEq for Except

/-- Outcomes the operating system gives the three socket calls made by one
`send_wol_packet` invocation: whether `socket(...)` succeeds, whether
`setsockopt(...)` succeeds, and the result of `sendto` (either the byte
count written or an `OSError` message). -/
structure NetOracle where
  socketOk : Bool
  setsockoptOk : Bool
  sendtoResult : Except String Nat
  deriving DecidableEq, Repr

/-- Socket operations observable during one `send_wol_packet` invocation. -/
inductive SockEvent where
  | socketCreated
  | setsockoptBroadcast
  | sendto (payload : List Nat) (ip : String) (port : Nat)
  | close
  deriving DecidableEq, Repr

namespace WolCore

/-- Embeds `validate_mac_address` from `wol_core.py` (lines 11-25): strip
the separators `:` `-` `.`, uppercase, raise on length other than 12, then
raise unless `int(mac, 16)` succeeds. -/
def validate_mac_address (mac : String) : Except MacError String :=
  let m := pyUpper (stripSeps mac)
  if m.length ≠ 12 then
    Except.error (MacError.invalidLength m)
  else if int16Accepts m then
    Except.ok m
  else
    Except.error (MacError.invalidFormat m)

/-- Embeds `create_magic_packet` from `wol_core.py` (lines 28-39):
validate and normalize the address, decode it with `bytes.fromhex`, and
return 6 bytes of 0xFF followed by 16 copies of the decoded bytes.  A
`ValueError` from validation or decoding escapes to the caller. -/
def create_magic_packet (mac_address : String) : Except PyError (List Nat) :=
  match validate_mac_address mac_address with
  | Except.error (MacError.invalidLength m) =>
    Except.error (PyError.valueError ("Invalid MAC address length: " ++ m))
  | Except.error (MacError.invalidFormat m) =>
    Except.error (PyError.valueError ("Invalid MAC address format: " ++ m))
  | Except.ok mac =>
    match bytesFromHex mac with
    | none =>
      Except.error (PyError.valueError "non-hexadecimal number found in fromhex() arg")
    | some mac_bytes =>
      Except.ok (List.replicate 6 0xFF ++ (List.replicate 16 mac_bytes).flatten)

/-- Embeds `send_wol_packet` from `wol_core.py` (lines 42-70).  The whole
body sits inside `try ... except Exception: return False`; the calls
happen in source order (build packet, create socket, set the broadcast
option, `sendto`, `close`), and `sock.close()` is reached only when every
earlier call succeeded.  The `logger` parameter of the source only emits
log lines and is not modelled.  Returns the Python return value paired
with the trace of socket operations performed. -/
def send_wol_packet (mac_address target_ip : String) (port : Nat) (net : NetOracle) :
    Bool × List SockEvent :=
  match create_magic_packet mac_address with
  | Except.error _ => (false, [])
  | Except.ok magic_packet =>
    if net.socketOk then
      if net.setsockoptOk then
        match net.sendtoResult with
        | Except.ok _ =>
          (true, [SockEvent.socketCreated, SockEvent.setsockoptBroadcast,
                  SockEvent.sendto magic_packet target_ip port, SockEvent.close])
        | Except.error _ =>
          (false, [SockEvent.socketCreated, SockEvent.setsockoptBroadcast,
                   SockEvent.sendto magic_packet target_ip port])
      else (false, [SockEvent.socketCreated])
    else (false, [])

end WolCore

namespace WolSender

/-- Embeds `validate_mac_address` from `wol_sender.py` (lines 23-37), the
duplicated copy of the validator: strip the separators `:` `-` `.`,
uppercase, raise on length other than 12, then raise unless
`int(mac, 16)` succeeds. -/
def validate_mac_address (mac : String) : Except MacError String :=
  let m := pyUpper (stripSeps mac)
  if m.length ≠ 12 then
    Except.error (MacError.invalidLength m)
  else if int16Accepts m then
    Except.ok m
  else
    Except.error (MacError.invalidFormat m)

/-- Embeds `create_magic_packet` from `wol_sender.py` (lines 39-50), the
duplicated copy of the packet builder: validate and normalize the address,
decode it with `bytes.fromhex`, and return 6 bytes of 0xFF followed by 16
copies of the decoded bytes. -/
def create_magic_packet (mac_address : String) : Except PyError (List Nat) :=
  match validate_mac_address mac_address with
  | Except.error (MacError.invalidLength m) =>
    Except.error (PyError.valueError ("Invalid MAC address length: " ++ m))
  | Except.error (MacError.invalidFormat m) =>
    Except.error (PyError.valueError ("Invalid MAC address format: " ++ m))
  | Except.ok mac =>
    match bytesFromHex mac with
    | none =>
      Except.error (PyError.valueError "non-hexadecimal number found in fromhex() arg")
    | some mac_bytes =>
      Except.ok (List.replicate 6 0xFF ++ (List.replicate 16 mac_bytes).flatten)

end WolSender

/-- Decoding of consecutive hexadecimal digit pairs: the value
`bytes.fromhex` returns on an even-length run of hex digits with no
spaces. -/
def decodeHexPairs : List Char → List Nat
  | c :: d :: rest => (hexVal c * 16 + hexVal d) :: decodeHexPairs rest
  | _ => []

/-- The packet `create_magic_packet` builds on a given input, with `[]`
standing for the error case; a convenience for concrete statements. -/
def packetOf (s : String) : List Nat :=
  (WolCore.create_magic_packet s).toOption.getD []

/-! Facts about hexadecimal characters and the base-16 literal parser. -/

lemma isHexDig_toNat {c : Char} (h : isHexDig c = true) :
    ((48 ≤ c.toNat ∧ c.toNat ≤ 57) ∨ (97 ≤ c.toNat ∧ c.toNat ≤ 102)) ∨
      (65 ≤ c.toNat ∧ c.toNat ≤ 70) := by
  simp only [isHexDig, Bool.or_eq_true, Bool.and_eq_true, decide_eq_true_eq] at h
  exact h

lemma ne_of_isHexDig {c d : Char} (h : isHexDig c = true) (hd : isHexDig d = false) :
    ¬ (c = d) := by
  intro e
  rw [e, hd] at h
  exact Bool.noConfusion h

lemma isPySpace_eq_false_of_hex {c : Char} (h : isHexDig c = true) : isPySpace c = false := by
  cases hb : isPySpace c with
  | false => rfl
  | true =>
    exfalso
    simp only [isPySpace, Bool.or_eq_true, decide_eq_true_eq] at hb
    rcases hb with ((((e | e) | e) | e) | e) | e <;> rw [e] at h <;> exact absurd h (by decide)

lemma hexTail_of_allHex : ∀ l : List Char, (∀ c ∈ l, isHexDig c = true) → hexTail l = true := by
  intro l
  induction l with
  | nil => intro _; rfl
  | cons c rest ih =>
    intro h
    have hc : isHexDig c = true := h c (List.mem_cons_self c rest)
    have hne : ¬ (c = '_') := ne_of_isHexDig hc (by decide)
    have hrest : ∀ d ∈ rest, isHexDig d = true := fun d hd => h d (List.mem_cons_of_mem c hd)
    rw [hexTail.eq_def]
    simp [hne, hc, ih hrest]

lemma hexDigits_of_allHex (l : List Char) (hne : l ≠ [])
    (h : ∀ c ∈ l, isHexDig c = true) : hexDigits l = true := by
  cases l with
  | nil => exact absurd rfl hne
  | cons c rest =>
    have hc : isHexDig c = true := h c (List.mem_cons_self c rest)
    have hrest : ∀ d ∈ rest, isHexDig d = true := fun d hd => h d (List.mem_cons_of_mem c hd)
    rw [hexDigits.eq_def]
    simp [hc, hexTail_of_allHex rest hrest]

lemma dropWhile_eq_self_of_not {p : Char → Bool} (l : List Char)
    (h : ∀ c ∈ l, p c = false) : l.dropWhile p = l := by
  cases l with
  | nil => rfl
  | cons c r => simp [List.dropWhile, h c (by simp)]

lemma pyStrip_of_allHex (l : List Char) (h : ∀ c ∈ l, isHexDig c = true) : pyStrip l = l := by
  unfold pyStrip
  rw [dropWhile_eq_self_of_not l (fun c hc => isPySpace_eq_false_of_hex (h c hc))]
  rw [dropWhile_eq_self_of_not l.reverse
    (fun c hc => isPySpace_eq_false_of_hex (h c (List.mem_reverse.mp hc)))]
  exact List.reverse_reverse l

lemma dropSign_of_allHex (l : List Char) (h : ∀ c ∈ l, isHexDig c = true) : dropSign l = l := by
  cases l with
  | nil => rfl
  | cons c r =>
    have hc : isHexDig c = true := h c (List.mem_cons_self c r)
    have h' : ¬ ((c = '+' || c = '-') = true) := by
      intro hcontra
      simp only [Bool.or_eq_true, decide_eq_true_eq] at hcontra
      rcases hcontra with e | e <;> rw [e] at hc <;> exact absurd hc (by decide)
    rw [dropSign.eq_def]
    simp [h']

lemma hexBody_of_allHex (l : List Char) (hne : l ≠ [])
    (h : ∀ c ∈ l, isHexDig c = true) : hexBody l = true := by
  cases l with
  | nil => exact absurd rfl hne
  | cons a t =>
    cases t with
    | nil =>
      show hexDigits [a] = true
      exact hexDigits_of_allHex [a] (by simp) h
    | cons b t2 =>
      have hb : isHexDig b = true := h b (by simp)
      have hbx : ¬ (b = 'x') := ne_of_isHexDig hb (by decide)
      have hbX : ¬ (b = 'X') := ne_of_isHexDig hb (by decide)
      rw [hexBody.eq_def]
      simp [hbx, hbX, hexDigits_of_allHex (a :: b :: t2) (by simp) h]

lemma int16Accepts_of_allHex (s : String) (hne : s.data ≠ [])
    (h : ∀ c ∈ s.data, isHexDig c = true) : int16Accepts s = true := by
  unfold int16Accepts
  rw [pyStrip_of_allHex s.data h, dropSign_of_allHex s.data h]
  exact hexBody_of_allHex s.data hne h

/-- Shared helper: `validate_mac_address` accepts any input whose stripped
and uppercased form is a 12-character all-hex string, and returns that
form. -/
lemma validate_ok_aux (c s : String) (hlen : c.length = 12)
    (hhex : ∀ ch ∈ c.data, isHexDig ch = true)
    (hrend : normalizeInput s = c) :
    WolCore.validate_mac_address s = Except.ok c := by
  unfold WolCore.validate_mac_address
  have hm : pyUpper (stripSeps s) = c := hrend
  rw [hm]
  have hne : ¬ (c.length ≠ 12) := by omega
  rw [if_neg hne]
  have hdata : c.data ≠ [] := by
    intro e
    have : c.length = 0 := by simp [String.length, e]
    omega
  rw [int16Accepts_of_allHex c hdata hhex]
  simp

/-! Facts about `bytes.fromhex`, pair decoding and the packet layout. -/

lemma charLe_toNat {a b : Char} (h : a ≤ b) : a.toNat ≤ b.toNat := h

lemma isHexDig_of_toNat {c : Char}
    (h : ((48 ≤ c.toNat ∧ c.toNat ≤ 57) ∨ (97 ≤ c.toNat ∧ c.toNat ≤ 102)) ∨
      (65 ≤ c.toNat ∧ c.toNat ≤ 70)) : isHexDig c = true := by
  simp only [isHexDig, Bool.or_eq_true, Bool.and_eq_true, decide_eq_true_eq]
  exact h

lemma hexVal_digit {c : Char} (h1 : 48 ≤ c.toNat) (h2 : c.toNat ≤ 57) :
    hexVal c = c.toNat - 48 := by
  have c1 : (('0':Char) ≤ c && c ≤ '9') = true := by
    simp only [Bool.and_eq_true, decide_eq_true_eq]
    exact ⟨h1, h2⟩
  unfold hexVal
  rw [c1]
  simp

lemma hexVal_lower {c : Char} (h1 : 97 ≤ c.toNat) (h2 : c.toNat ≤ 102) :
    hexVal c = c.toNat - 87 := by
  have c1 : (('0':Char) ≤ c && c ≤ '9') = false := by
    have hn : ¬ (c ≤ '9') := fun hc => absurd (show c.toNat ≤ 57 from hc) (by omega)
    simp only [Bool.and_eq_false_iff, decide_eq_false_iff_not]
    exact Or.inr hn
  have c2 : (('a':Char) ≤ c && c ≤ 'f') = true := by
    simp only [Bool.and_eq_true, decide_eq_true_eq]
    exact ⟨h1, h2⟩
  unfold hexVal
  rw [c1, c2]
  simp

lemma hexVal_upper {c : Char} (h1 : 65 ≤ c.toNat) (h2 : c.toNat ≤ 70) :
    hexVal c = c.toNat - 55 := by
  have c1 : (('0':Char) ≤ c && c ≤ '9') = false := by
    have hn : ¬ (c ≤ '9') := fun hc => absurd (show c.toNat ≤ 57 from hc) (by omega)
    simp only [Bool.and_eq_false_iff, decide_eq_false_iff_not]
    exact Or.inr hn
  have c2 : (('a':Char) ≤ c && c ≤ 'f') = false := by
    have hn : ¬ (('a':Char) ≤ c) := fun hc => absurd (show 97 ≤ c.toNat from hc) (by omega)
    simp only [Bool.and_eq_false_iff, decide_eq_false_iff_not]
    exact Or.inl hn
  have c3 : (('A':Char) ≤ c && c ≤ 'F') = true := by
    simp only [Bool.and_eq_true, decide_eq_true_eq]
    exact ⟨h1, h2⟩
  unfold hexVal
  rw [c1, c2, c3]
  simp

lemma toUpper_eq_self_of {c : Char} (h : c.toNat < 97 ∨ 122 < c.toNat) :
    Char.toUpper c = c := by
  unfold Char.toUpper
  rw [if_neg]
  omega

lemma toUpper_toNat_lower {c : Char} (h1 : 97 ≤ c.toNat) (h2 : c.toNat ≤ 122) :
    (Char.toUpper c).toNat = c.toNat - 32 := by
  unfold Char.toUpper
  have hcond : c.toNat ≥ 97 ∧ c.toNat ≤ 122 := ⟨h1, h2⟩
  rw [if_pos hcond]
  have hlt : c.toNat - 32 < 0xd800 := by omega
  have hv : (c.toNat - 32).isValidChar := Or.inl hlt
  simp only [Char.ofNat, dif_pos hv]
  simp [Char.ofNatAux, Char.toNat, UInt32.toNat, BitVec.toNat_ofNatLt]

lemma toUpper_hex_facts {c : Char} (h : isHexDig c = true) :
    isHexDig (Char.toUpper c) = true ∧ hexVal (Char.toUpper c) = hexVal c := by
  rcases isHexDig_toNat h with (⟨h1, h2⟩ | ⟨h1, h2⟩) | ⟨h1, h2⟩
  · rw [toUpper_eq_self_of (Or.inl (by omega))]
    exact ⟨h, rfl⟩
  · have e : (Char.toUpper c).toNat = c.toNat - 32 := toUpper_toNat_lower (by omega) (by omega)
    constructor
    · exact isHexDig_of_toNat (Or.inr (by omega))
    · rw [hexVal_upper (by omega) (by omega), hexVal_lower h1 h2, e]
      omega
  · rw [toUpper_eq_self_of (Or.inl (by omega))]
    exact ⟨h, rfl⟩

lemma fromhexAux_of_allHex : ∀ l : List Char, (∀ c ∈ l, isHexDig c = true) →
    l.length % 2 = 0 → fromhexAux l = some (decodeHexPairs l) := by
  intro l
  induction l using decodeHexPairs.induct with
  | case1 c d rest ih =>
    intro h hlen
    have hc : isHexDig c = true := h c (by simp)
    have hd : isHexDig d = true := h d (by simp)
    have hcs : ¬ (c = ' ') := ne_of_isHexDig hc (by decide)
    have hlen2 : rest.length % 2 = 0 := by
      simp only [List.length_cons] at hlen
      omega
    rw [fromhexAux.eq_def]
    simp only [if_neg hcs]
    rw [ih (fun a ha => h a (by simp [ha])) hlen2]
    simp only [hc, hd, Bool.and_self, if_pos]
    rw [decodeHexPairs]
  | case2 t hno =>
    intro h hlen
    cases t with
    | nil => rfl
    | cons x t2 =>
      cases t2 with
      | nil => simp at hlen
      | cons y t3 => exact absurd rfl (hno x y t3)

lemma decodeHexPairs_length : ∀ l : List Char, (decodeHexPairs l).length = l.length / 2 := by
  intro l
  induction l using decodeHexPairs.induct with
  | case1 c d rest ih =>
    rw [decodeHexPairs]
    simp only [List.length_cons, ih]
    omega
  | case2 t hno =>
    cases t with
    | nil => simp [decodeHexPairs]
    | cons x t2 =>
      cases t2 with
      | nil => simp [decodeHexPairs]
      | cons y t3 => exact absurd rfl (hno x y t3)

lemma decodeHexPairs_map_toUpper : ∀ l : List Char, (∀ c ∈ l, isHexDig c = true) →
    decodeHexPairs (l.map Char.toUpper) = decodeHexPairs l := by
  intro l
  induction l using decodeHexPairs.induct with
  | case1 c d rest ih =>
    intro h
    have hc := (toUpper_hex_facts (h c (by simp))).2
    have hd := (toUpper_hex_facts (h d (by simp))).2
    simp only [List.map_cons]
    rw [decodeHexPairs, decodeHexPairs, hc, hd, ih (fun a ha => h a (by simp [ha]))]
  | case2 t hno =>
    intro h
    cases t with
    | nil => simp [decodeHexPairs]
    | cons x t2 =>
      cases t2 with
      | nil => simp [decodeHexPairs]
      | cons y t3 => exact absurd rfl (hno x y t3)

lemma flatten_replicate_slice (mb : List Nat) (h : mb.length = 6) :
    ∀ n k, k < n → (((List.replicate n mb).flatten).drop (6 * k)).take 6 = mb := by
  intro n
  induction n with
  | zero => intro k hk; exact absurd hk (Nat.not_lt_zero k)
  | succ n ih =>
    intro k hk
    rw [List.replicate_succ, List.flatten_cons]
    cases k with
    | zero =>
      simp only [Nat.mul_zero, List.drop_zero]
      exact List.take_left' h
    | succ k =>
      have e : 6 * (k + 1) = mb.length + 6 * k := by omega
      rw [e, List.drop_append]
      exact ih k (by omega)

lemma packet_length (mb : List Nat) (h : mb.length = 6) :
    (List.replicate 6 0xFF ++ (List.replicate 16 mb).flatten).length = 102 := by
  simp [List.length_append, List.length_flatten, List.map_replicate, h, List.sum_replicate]

lemma packet_take6 (mb : List Nat) :
    (List.replicate 6 0xFF ++ (List.replicate 16 mb).flatten).take 6 =
      List.replicate 6 0xFF :=
  List.take_left' (by simp)

lemma packet_slice (mb : List Nat) (h : mb.length = 6) (k : Nat) (hk : k < 16) :
    ((List.replicate 6 0xFF ++ (List.replicate 16 mb).flatten).drop (6 + 6 * k)).take 6 =
      mb := by
  have e : 6 + 6 * k = (List.replicate 6 (0xFF : Nat)).length + 6 * k := by simp
  rw [e, List.drop_append]
  exact flatten_replicate_slice mb h 16 k hk

lemma stripSeps_of_allHex (s : String) (h : ∀ c ∈ s.data, isHexDig c = true) :
    stripSeps s = s := by
  unfold stripSeps
  have hfil : s.data.filter (fun c => !(c = ':' || c = '-' || c = '.')) = s.data := by
    rw [List.filter_eq_self]
    intro a ha
    have hx : isHexDig a = true := h a ha
    have n1 : ¬ (a = ':') := ne_of_isHexDig hx (by decide)
    have n2 : ¬ (a = '-') := ne_of_isHexDig hx (by decide)
    have n3 : ¬ (a = '.') := ne_of_isHexDig hx (by decide)
    simp [n1, n2, n3]
  rw [hfil]

lemma pyUpper_allHex (s : String) (h : ∀ c ∈ s.data, isHexDig c = true) :
    ∀ c ∈ (pyUpper s).data, isHexDig c = true := by
  intro c hc
  unfold pyUpper at hc
  simp only [List.mem_map] at hc
  obtain ⟨a, ha, rfl⟩ := hc
  exact (toUpper_hex_facts (h a ha)).1

lemma pyUpper_length (s : String) : (pyUpper s).length = s.length := by
  show (pyUpper s).data.length = s.data.length
  unfold pyUpper
  exact List.length_map s.data Char.toUpper

/-- Shared helper: on a 12-character all-hex input, `create_magic_packet`
succeeds and builds the packet from the six decoded byte pairs. -/
lemma create_ok_of_allHex (s : String) (h1 : s.length = 12)
    (h2 : ∀ c ∈ s.data, isHexDig c = true) :
    WolCore.create_magic_packet s =
      Except.ok (List.replicate 6 0xFF ++
        (List.replicate 16 (decodeHexPairs s.data)).flatten) ∧
    (decodeHexPairs s.data).length = 6 := by
  have hstrip : stripSeps s = s := stripSeps_of_allHex s h2
  have huphex : ∀ c ∈ (pyUpper s).data, isHexDig c = true := pyUpper_allHex s h2
  have huplen : (pyUpper s).length = 12 := by rw [pyUpper_length]; exact h1
  have hval : WolCore.validate_mac_address s = Except.ok (pyUpper s) :=
    validate_ok_aux (pyUpper s) s huplen huphex (by unfold normalizeInput; rw [hstrip])
  have hdatalen : s.data.length = 12 := h1
  have hfh : fromhexAux (pyUpper s).data = some (decodeHexPairs (pyUpper s).data) := by
    apply fromhexAux_of_allHex (pyUpper s).data huphex
    have : (pyUpper s).data.length = 12 := huplen
    omega
  have hdec : decodeHexPairs (pyUpper s).data = decodeHexPairs s.data := by
    unfold pyUpper
    exact decodeHexPairs_map_toUpper s.data h2
  constructor
  · unfold WolCore.create_magic_packet bytesFromHex
    rw [hval]
    simp [hfh, hdec]
  · rw [decodeHexPairs_length]
    omega

lemma create_error_of_validate_error (mac : String) (e : MacError)
    (h : WolCore.validate_mac_address mac = Except.error e) :
    ∃ msg, WolCore.create_magic_packet mac = Except.error (PyError.valueError msg) := by
  unfold WolCore.create_magic_packet
  rw [h]
  cases e with
  | invalidLength m => exact ⟨_, rfl⟩
  | invalidFormat m => exact ⟨_, rfl⟩

/-! The claims. -/

/-- Claim C4: for every 12-hexadecimal-character address string,
`create_magic_packet` returns a packet of exactly 102 bytes whose first 6
bytes each equal 0xFF and whose bytes [6+6k, 12+6k) for every k in 0..15
equal the 6-byte address decoded from the 12 hex characters. -/
theorem C4_magic_packet_layout (s : String) (h1 : s.length = 12)
    (h2 : ∀ c ∈ s.data, isHexDig c = true) :
    ∃ pkt, WolCore.create_magic_packet s = Except.ok pkt ∧
      pkt.length = 102 ∧
      pkt.take 6 = List.replicate 6 0xFF ∧
      ∀ k, k < 16 → (pkt.drop (6 + 6 * k)).take 6 = decodeHexPairs s.data := by
  obtain ⟨hc, hlen6⟩ := create_ok_of_allHex s h1 h2
  exact ⟨_, hc, packet_length _ hlen6, packet_take6 _,
    fun k hk => packet_slice _ hlen6 k hk⟩

/-- Concrete instance of C4 at the address 001122334455. -/
theorem C4_witness :
    ("001122334455" : String).length = 12 ∧
    (∀ c ∈ ("001122334455" : String).data, isHexDig c = true) ∧
    (∃ pkt, WolCore.create_magic_packet "001122334455" = Except.ok pkt ∧
      pkt.length = 102 ∧
      pkt.take 6 = List.replicate 6 0xFF ∧
      ∀ k, k < 16 → (pkt.drop (6 + 6 * k)).take 6 =
        decodeHexPairs ("001122334455" : String).data) :=
  ⟨by decide, by decide, C4_magic_packet_layout "001122334455" (by decide) (by decide)⟩

/-- Claim C5: every accepted rendering of a 12-hex-digit address — colon-,
hyphen-, dot-separated or unseparated, in any mix of character case, i.e.
any string whose stripped uppercased form is the canonical string —
normalizes to that same canonical 12-character uppercase string. -/
theorem C5_renderings_normalize_equal (c s : String) (hlen : c.length = 12)
    (hhex : ∀ ch ∈ c.data, isHexDig ch = true)
    (hrend : normalizeInput s = c) :
    WolCore.validate_mac_address s = Except.ok c :=
  validate_ok_aux c s hlen hhex hrend

/-- Concrete instance of C5: the hyphen-separated lowercase rendering of
001122334455 normalizes to the canonical string. -/
theorem C5_witness :
    ("001122334455" : String).length = 12 ∧
    (∀ ch ∈ ("001122334455" : String).data, isHexDig ch = true) ∧
    normalizeInput "00-11-22-33-44-55" = "001122334455" ∧
    WolCore.validate_mac_address "00-11-22-33-44-55" = Except.ok "001122334455" :=
  ⟨by decide, by decide, by decide,
    C5_renderings_normalize_equal "001122334455" "00-11-22-33-44-55"
      (by decide) (by decide) (by decide)⟩

/-- Claim C1: contrary to the claim, `validate_mac_address` accepts the
12-character input "0x1122334455" although its stripped uppercased form
contains the character X, which is not a hexadecimal digit — the input
slips through because `int(mac, 16)` accepts a 0x-marked literal. -/
theorem C1_non_hex_accepted :
    WolCore.validate_mac_address "0x1122334455" = Except.ok "0X1122334455" ∧
    'X' ∈ ("0X1122334455" : String).data ∧ isHexDig 'X' = false :=
  ⟨by decide, by decide, by decide⟩

/-- Claim C6: when address validation fails, `send_wol_packet` returns the
failure result False without performing any socket operation. -/
theorem C6_no_socket_on_invalid (mac ip : String) (port : Nat) (o : NetOracle) (e : MacError)
    (h : WolCore.validate_mac_address mac = Except.error e) :
    WolCore.send_wol_packet mac ip port o = (false, []) := by
  obtain ⟨msg, hc⟩ := create_error_of_validate_error mac e h
  unfold WolCore.send_wol_packet
  rw [hc]

/-- Concrete instance of C6 at the 11-hex-digit address of the spec's
scenario, with a transport that would succeed if reached. -/
theorem C6_witness :
    WolCore.validate_mac_address "00:11:22:33:44" =
      Except.error (MacError.invalidLength "0011223344") ∧
    WolCore.send_wol_packet "00:11:22:33:44" "255.255.255.255" 9
      ⟨true, true, Except.ok 102⟩ = (false, []) :=
  ⟨by decide, C6_no_socket_on_invalid "00:11:22:33:44" "255.255.255.255" 9
    ⟨true, true, Except.ok 102⟩ (MacError.invalidLength "0011223344") (by decide)⟩

/-- Claim C8: `validate_mac_address` is total and deterministic: on every
input string it returns either the canonical stripped uppercased
12-character string or one of the two errors invalidLength /
invalidFormat, and nothing else. -/
theorem C8_validate_total (s : String) :
    (WolCore.validate_mac_address s = Except.ok (normalizeInput s) ∧
      (normalizeInput s).length = 12) ∨
    WolCore.validate_mac_address s =
      Except.error (MacError.invalidLength (normalizeInput s)) ∨
    WolCore.validate_mac_address s =
      Except.error (MacError.invalidFormat (normalizeInput s)) := by
  unfold WolCore.validate_mac_address normalizeInput
  by_cases hl : (pyUpper (stripSeps s)).length ≠ 12
  · right; left
    rw [if_pos hl]
  · rw [if_neg hl]
    cases hi : int16Accepts (pyUpper (stripSeps s)) with
    | true =>
      left
      exact ⟨by simp, by omega⟩
    | false =>
      right; right
      simp

/-- Claim C9: the duplicated validation and packet-building logic in
`wol_core.py` and `wol_sender.py` are extensionally equal: on every input
both copies of `validate_mac_address` agree and both copies of
`create_magic_packet` agree. -/
theorem C9_copies_extensionally_equal :
    (∀ s, WolCore.validate_mac_address s = WolSender.validate_mac_address s) ∧
    (∀ s, WolCore.create_magic_packet s = WolSender.create_magic_packet s) :=
  ⟨fun _ => rfl, fun _ => rfl⟩

/-- Claim C10: `send_wol_packet` always returns a boolean to its caller:
True exactly when validation, packet building, socket creation, option
setting and the send all succeed, and False as soon as any internal step
fails. -/
theorem C10_bool_result_iff (mac ip : String) (port : Nat) (o : NetOracle) :
    (WolCore.send_wol_packet mac ip port o).1 = true ↔
      ((∃ pkt, WolCore.create_magic_packet mac = Except.ok pkt) ∧
        o.socketOk = true ∧ o.setsockoptOk = true ∧
        ∃ n, o.sendtoResult = Except.ok n) := by
  unfold WolCore.send_wol_packet
  cases hc : WolCore.create_magic_packet mac with
  | error e => simp [hc]
  | ok pkt =>
    cases hs : o.socketOk with
    | false => simp [hs, hc]
    | true =>
      cases hst : o.setsockoptOk with
      | false => simp [hs, hst, hc]
      | true =>
        cases hsr : o.sendtoResult with
        | error msg => simp [hs, hst, hsr, hc]
        | ok n => simp [hs, hst, hsr, hc]

/-- Claim C2 counterexample: on the spec's own end-to-end scenario the
result of `send_wol_packet` is identical whether the transport reports
102 bytes written or 7, so the function cannot be returning the number of
bytes written; its success result is the boolean True. -/
theorem C2_counterexample :
    WolCore.send_wol_packet "AA-BB-CC-DD-EE-FF" "192.168.1.100" 9
        ⟨true, true, Except.ok 102⟩ =
      WolCore.send_wol_packet "AA-BB-CC-DD-EE-FF" "192.168.1.100" 9
        ⟨true, true, Except.ok 7⟩ ∧
    (WolCore.send_wol_packet "AA-BB-CC-DD-EE-FF" "192.168.1.100" 9
        ⟨true, true, Except.ok 102⟩).1 = true :=
  ⟨rfl, rfl⟩

/-- Claim C2 amended: for a valid address, when socket creation, option
setting and the send all succeed `send_wol_packet` returns True after one
full-packet send and a close, discarding the reported byte count; when the
send fails it returns False, the OS cause being logged but not returned. -/
theorem C2_amended_bool_result (mac ip : String) (port n : Nat) (msg : String)
    (o o' : NetOracle) (pkt : List Nat)
    (hc : WolCore.create_magic_packet mac = Except.ok pkt)
    (h1 : o.socketOk = true) (h2 : o.setsockoptOk = true)
    (h3 : o.sendtoResult = Except.ok n)
    (h1' : o'.socketOk = true) (h2' : o'.setsockoptOk = true)
    (h3' : o'.sendtoResult = Except.error msg) :
    WolCore.send_wol_packet mac ip port o =
      (true, [SockEvent.socketCreated, SockEvent.setsockoptBroadcast,
              SockEvent.sendto pkt ip port, SockEvent.close]) ∧
    WolCore.send_wol_packet mac ip port o' =
      (false, [SockEvent.socketCreated, SockEvent.setsockoptBroadcast,
               SockEvent.sendto pkt ip port]) := by
  unfold WolCore.send_wol_packet
  rw [hc]
  constructor
  · simp [h1, h2, h3]
  · simp [h1', h2', h3']

/-- Concrete instance of the amended C2 at the spec's end-to-end scenario
address and destination. -/
theorem C2_witness :
    WolCore.send_wol_packet "AA-BB-CC-DD-EE-FF" "192.168.1.100" 9
        ⟨true, true, Except.ok 102⟩ =
      (true, [SockEvent.socketCreated, SockEvent.setsockoptBroadcast,
              SockEvent.sendto (packetOf "AA-BB-CC-DD-EE-FF") "192.168.1.100" 9,
              SockEvent.close]) ∧
    WolCore.send_wol_packet "AA-BB-CC-DD-EE-FF" "192.168.1.100" 9
        ⟨true, true, Except.error "Network is unreachable"⟩ =
      (false, [SockEvent.socketCreated, SockEvent.setsockoptBroadcast,
               SockEvent.sendto (packetOf "AA-BB-CC-DD-EE-FF") "192.168.1.100" 9]) :=
  C2_amended_bool_result "AA-BB-CC-DD-EE-FF" "192.168.1.100" 9 102
    "Network is unreachable" ⟨true, true, Except.ok 102⟩
    ⟨true, true, Except.error "Network is unreachable"⟩
    (packetOf "AA-BB-CC-DD-EE-FF") rfl rfl rfl rfl rfl rfl rfl

/-- Claim C3 counterexample: with a transport whose `sendto` fails, the
invocation acquires the socket but never closes it — the trace ends after
the failed send with no close event. -/
theorem C3_counterexample :
    (WolCore.send_wol_packet "001122334455" "255.255.255.255" 9
        ⟨true, true, Except.error "Operation not permitted"⟩).2 =
      [SockEvent.socketCreated, SockEvent.setsockoptBroadcast,
       SockEvent.sendto (packetOf "001122334455") "255.255.255.255" 9] ∧
    SockEvent.socketCreated ∈ (WolCore.send_wol_packet "001122334455" "255.255.255.255" 9
        ⟨true, true, Except.error "Operation not permitted"⟩).2 ∧
    SockEvent.close ∉ (WolCore.send_wol_packet "001122334455" "255.255.255.255" 9
        ⟨true, true, Except.error "Operation not permitted"⟩).2 :=
  ⟨rfl, by decide, by decide⟩

/-- Claim C3 amended: `send_wol_packet` closes its socket exactly on the
fully successful path; on every failing path — including a send failure
after the socket was acquired — no close happens. -/
theorem C3_amended_close_iff_success (mac ip : String) (port : Nat) (o : NetOracle) :
    SockEvent.close ∈ (WolCore.send_wol_packet mac ip port o).2 ↔
      (WolCore.send_wol_packet mac ip port o).1 = true := by
  unfold WolCore.send_wol_packet
  cases hc : WolCore.create_magic_packet mac with
  | error e => simp
  | ok pkt =>
    cases hs : o.socketOk with
    | false => simp [hs]
    | true =>
      cases hst : o.setsockoptOk with
      | false => simp [hs, hst]
      | true =>
        cases hsr : o.sendtoResult with
        | error msg => simp [hs, hst, hsr]
        | ok n => simp [hs, hst, hsr]

/-- Claim C7: the 12-character input "  22334455AA" (two leading spaces)
passes validation, `bytes.fromhex` decodes only five byte pairs, and the
single send of `send_wol_packet` carries an 86-byte payload rather than
the full 102-byte magic packet. -/
theorem C7_non_full_payload_sent :
    (packetOf "  22334455AA").length = 86 ∧
    WolCore.send_wol_packet "  22334455AA" "255.255.255.255" 9
        ⟨true, true, Except.ok 86⟩ =
      (true, [SockEvent.socketCreated, SockEvent.setsockoptBroadcast,
              SockEvent.sendto (packetOf "  22334455AA") "255.255.255.255" 9,
              SockEvent.close]) :=
  ⟨by decide, rfl⟩

end DockerNudge
